import Mathlib

/-!
Shallow embedding of `packages/hw-app-hedera/src/Hedera.ts` (Hedera app
APDU layer of ledgerjs): path serialization, signing chunk construction,
frame building, sequential send traces, and response decoding.

Bytes are modelled as `List Nat` (each entry intended `< 256`); Node
`Buffer` writes that validate their argument ranges are modelled with
`Except String`.
-/

namespace LedgerHedera

/-- `CHUNK_SIZE` constant of Hedera.ts. -/
def CHUNK_SIZE : Nat := 250

/-- `CLA` constant of Hedera.ts. -/
def CLA : Nat := 0xe0

/-- `INS.GET_VERSION`. -/
def INS_GET_VERSION : Nat := 0x00

/-- `INS.GET_ADDR`. -/
def INS_GET_ADDR : Nat := 0x02

/-- `INS.SIGN`. -/
def INS_SIGN : Nat := 0x04

/-- `PAYLOAD_TYPE_INIT`. -/
def PAYLOAD_TYPE_INIT : Nat := 0x00

/-- `PAYLOAD_TYPE_ADD`. -/
def PAYLOAD_TYPE_ADD : Nat := 0x01

/-- `PAYLOAD_TYPE_LAST`. -/
def PAYLOAD_TYPE_LAST : Nat := 0x02

/-- `SW_OK`. -/
def SW_OK : Nat := 0x9000

/-- `SW_CANCEL`. -/
def SW_CANCEL : Nat := 0x6986

/-- Error text standing for the Node range check of `Buffer.writeInt8`,
which accepts only values in `[-128, 127]`. -/
def int8OutOfRange : String := "writeInt8 value out of range"

/-- Error text standing for the Node range check of `Buffer.writeUInt32BE`,
which accepts only values in `[0, 0xffffffff]`. -/
def uint32OutOfRange : String := "writeUInt32BE value out of range"

/-- The four bytes stored by `data.writeUInt32BE(segment, off)`:
the value big-endian in 4 bytes. -/
def writeUInt32BE (v : Nat) : List Nat :=
  [v / 0x1000000 % 0x100, v / 0x10000 % 0x100, v / 0x100 % 0x100, v % 0x100]

/-- `serializePath(path)`: allocates `1 + 4 * path.length` bytes, stores the
length with `writeInt8` (throws when the length exceeds 127), then each
segment big-endian with `writeUInt32BE` (throws when a segment exceeds
`0xffffffff`). -/
def serializePath (path : List Nat) : Except String (List Nat) :=
  if 127 < path.length then Except.error int8OutOfRange
  else if path.any (fun s => 0xffffffff < s) then Except.error uint32OutOfRange
  else Except.ok (path.length :: (path.map writeUInt32BE).flatten)

/-- Big-endian read of a 4-byte group (inverse direction of
`writeUInt32BE`), used to state the round-trip property. -/
def readUInt32BE (bs : List Nat) : Nat :=
  bs.getD 0 0 * 0x1000000 + bs.getD 1 0 * 0x10000 + bs.getD 2 0 * 0x100 + bs.getD 3 0

/-- Decoding of consecutive big-endian 4-byte groups, used to state the
round-trip property of `serializePath`. -/
def decodeSegments : List Nat → List Nat
  | a :: b :: c :: d :: rest => readUInt32BE [a, b, c, d] :: decodeSegments rest
  | _ => []

/-- The chunking loop of `signTransaction`:
`for (let i = 0; i < buffer.length; i += CHUNK_SIZE) chunks.push(buffer.slice(i, i + CHUNK_SIZE))`
(the `i > buffer.length` reassignment of `end` never fires, and
`Buffer.slice` clamps the end to the buffer length). The loop body runs
once for each `i = k * CHUNK_SIZE` below `buffer.length`, i.e.
`⌈buffer.length / CHUNK_SIZE⌉` times. -/
def chunkMessage (buffer : List Nat) : List (List Nat) :=
  (List.range ((buffer.length + CHUNK_SIZE - 1) / CHUNK_SIZE)).map
    fun k => (buffer.drop (k * CHUNK_SIZE)).take CHUNK_SIZE

/-- The full chunk list of `signTransaction`: the serialized path is pushed
first as its own chunk, then the message chunks. -/
def signChunks (serializedPath message : List Nat) : List (List Nat) :=
  serializedPath :: chunkMessage message

/-- One `transport.send(cla, ins, p1, p2, data, statusList)` request.
`statusList = none` models a call that omits the argument, in which case
`hw-transport` applies its default acceptable list `[0x9000]`. -/
structure APDU where
  cla : Nat
  ins : Nat
  p1 : Nat
  p2 : Nat
  data : List Nat
  statusList : Option (List Nat)
deriving DecidableEq

/-- The acceptable-status list that the transport actually applies:
the passed list, or the `hw-transport` default `[SW_OK]` when omitted. -/
def effectiveStatusList (a : APDU) : List Nat :=
  a.statusList.getD [SW_OK]

/-- The frame sent for chunk `j` of `numChunks` by `signTransaction`:
`p1` is `PAYLOAD_TYPE_INIT` when `j = 0`, else `PAYLOAD_TYPE_LAST` when
`j + 1 = numChunks`, else `PAYLOAD_TYPE_ADD`. -/
def signChunkAPDU (numChunks j : Nat) (data : List Nat) : APDU :=
  { cla := CLA
    ins := INS_SIGN
    p1 := if j = 0 then PAYLOAD_TYPE_INIT
      else if j + 1 = numChunks then PAYLOAD_TYPE_LAST
      else PAYLOAD_TYPE_ADD
    p2 := 0
    data := data
    statusList := some [SW_OK, SW_CANCEL] }

/-- The single frame sent by `getAddress` once the path serialized: note
`statusList = [SW_OK, SW_CANCEL]`. -/
def getAddressAPDU (serializedPath : List Nat) (display : Bool) : APDU :=
  { cla := CLA
    ins := INS_GET_ADDR
    p1 := if display then 0x01 else 0x00
    p2 := 0x00
    data := serializedPath
    statusList := some [SW_OK, SW_CANCEL] }

/-- The single frame sent by `getAppConfiguration`:
`transport.send(CLA, INS.GET_VERSION, 0x00, 0x00)` passes no data and,
notably, no acceptable-status list. -/
def getAppConfigAPDU : APDU :=
  { cla := CLA
    ins := INS_GET_VERSION
    p1 := 0x00
    p2 := 0x00
    data := []
    statusList := none }

/-- An observable transport interaction: a frame going out, or a raw reply
coming back. -/
inductive Event where
  | send : APDU → Event
  | recv : List Nat → Event
deriving DecidableEq

/-- The chunk-tag byte of a send event, `none` for a reply. -/
def eventP1 : Event → Option Nat
  | Event.send a => some a.p1
  | Event.recv _ => none

/-- The data of a send event, dropped for replies; recovers the sent chunk
sequence from a trace. -/
def sentData (tr : List Event) : List (List Nat) :=
  tr.filterMap fun e =>
    match e with
    | Event.send a => some a.data
    | Event.recv _ => none

/-- The acceptable-status argument of each send event, in order; recovers
the status lists the operation passed to the transport. -/
def sentStatusLists (tr : List Event) : List (Option (List Nat)) :=
  tr.filterMap fun e =>
    match e with
    | Event.send a => some a.statusList
    | Event.recv _ => none

/-- Event trace of `foreach(chunks, callback)` as used by
`signTransaction`: `iterate` runs `callback(array[index], index)` — one
`transport.send` whose promise resolves with the reply — and only then
recurses on `index + 1`, so each send is followed by its reply before the
next send. `oracle j` is the device reply to the `j`-th exchange. -/
def sendChunksTrace (oracle : Nat → List Nat) (numChunks : Nat) :
    Nat → List (List Nat) → List Event
  | _, [] => []
  | j, data :: rest =>
      Event.send (signChunkAPDU numChunks j data) :: Event.recv (oracle j) ::
        sendChunksTrace oracle numChunks (j + 1) rest

/-- Full transport trace of the chunk loop of `signTransaction`. -/
def signTrace (oracle : Nat → List Nat) (chunks : List (List Nat)) : List Event :=
  sendChunksTrace oracle chunks.length 0 chunks

/-- `response.slice(-2)` followed by
`errorCodeData[0] * 0x100 + errorCodeData[1]`: the status word decoded
big-endian from the last two response bytes. -/
def decodeStatus (response : List Nat) : Nat :=
  (response.drop (response.length - 2)).getD 0 0 * 0x100
    + (response.drop (response.length - 2)).getD 1 0

/-- Lower-case hex digit, as produced by `Buffer.toString("hex")`. -/
def hexChar (n : Nat) : Char :=
  if n < 10 then Char.ofNat (48 + n) else Char.ofNat (87 + n)

/-- `buffer.toString("hex")`: two lower-case hex digits per byte. -/
def bytesToHex (bs : List Nat) : String :=
  String.mk (bs.foldr (fun b acc => hexChar (b / 16 % 16) :: hexChar (b % 16) :: acc) [])

/-- Result object of `getAddress`. -/
structure AddressResult where
  publicKey : String
  address : String
  returnCode : Nat
deriving DecidableEq

/-- Result object of `signTransaction`. -/
structure SignResult where
  signature : Option (List Nat)
  returnCode : Nat
deriving DecidableEq

/-- The exceptions this layer can raise: the two refusal errors from
`@ledgerhq/errors`, and a Node buffer range error escaping
`serializePath`. -/
inductive HederaError where
  | userRefusedAddress
  | userRefusedOnDevice
  | rangeError : String → HederaError
deriving DecidableEq

/-- Tail of `getAddress` after the reply arrives: the local `returnCode`
is `decodeStatus response` (inlined here); throw `UserRefusedAddress` on
`SW_CANCEL`; otherwise return `publicKey = response.toString("hex")` (the
whole response, status word included), `address = ""`, and the raw
status. -/
def getAddressDecode (response : List Nat) : Except HederaError AddressResult :=
  if decodeStatus response = SW_CANCEL then Except.error HederaError.userRefusedAddress
  else Except.ok
    { publicKey := bytesToHex response
      address := ""
      returnCode := decodeStatus response }

/-- Tail of `signTransaction` after the last reply: the locals
`returnCode` and `signature` are inlined; `signature` is the response
minus the trailing 2 bytes when longer than 2 bytes, else `null`; throw
`UserRefusedOnDevice` on `SW_CANCEL`; otherwise return the signature and
the raw status. -/
def signDecode (response : List Nat) : Except HederaError SignResult :=
  if decodeStatus response = SW_CANCEL then Except.error HederaError.userRefusedOnDevice
  else Except.ok
    { signature :=
        (if 2 < response.length then some (response.take (response.length - 2)) else none)
      returnCode := decodeStatus response }

/-- `getAddress(path, display)` with the device reply `response` to its
single frame: serialize the path (a thrown range error propagates), send,
then decode. -/
def getAddress (path : List Nat) (display : Bool) (response : List Nat) :
    Except HederaError AddressResult :=
  match serializePath path with
  | Except.error e => Except.error (HederaError.rangeError e)
  | Except.ok _ => getAddressDecode response

/-- `signTransaction(path, message)` with device replies given by `oracle`:
serialize the path, build the chunks, send them all in order (each reply
overwrites `response`, so the decoded reply is the one to the final
chunk), then decode. -/
def signTransaction (path message : List Nat) (oracle : Nat → List Nat) :
    Except HederaError SignResult :=
  match serializePath path with
  | Except.error e => Except.error (HederaError.rangeError e)
  | Except.ok sp =>
      let chunks := signChunks sp message
      signDecode (oracle (chunks.length - 1))

/-- The derivation path of the spec scenarios: `"44/3030/0/0/0"` as parsed
by the external path collaborator. -/
def examplePath : List Nat := [44, 3030, 0, 0, 0]

/-- The serialized example path (21 bytes). -/
def exampleSp : List Nat := (serializePath examplePath).toOption.getD []

/-- A mocked reply: 32 arbitrary key bytes followed by the success status
word `0x90 0x00`. -/
def exampleReply : List Nat := List.replicate 32 0xab ++ [0x90, 0x00]

/-! ### General lemmas about the embedded operations -/

theorem readUInt32BE_writeUInt32BE (v : Nat) (h : v < 0x100000000) :
    readUInt32BE (writeUInt32BE v) = v := by
  simp only [readUInt32BE, writeUInt32BE, List.getD_cons_zero, List.getD_cons_succ]
  omega

theorem decodeSegments_flatten : ∀ (path : List Nat), (∀ s ∈ path, s < 0x100000000) →
    decodeSegments ((path.map writeUInt32BE).flatten) = path
  | [], _ => rfl
  | s :: rest, h => by
    have hs : s < 0x100000000 := h s (List.mem_cons_self s rest)
    have ih := decodeSegments_flatten rest (fun x hx => h x (List.mem_cons_of_mem s hx))
    have hw : writeUInt32BE s ++ (rest.map writeUInt32BE).flatten
        = s / 0x1000000 % 0x100 :: s / 0x10000 % 0x100 :: s / 0x100 % 0x100 :: s % 0x100 ::
            (rest.map writeUInt32BE).flatten := rfl
    simp only [List.map_cons, List.flatten_cons, hw, decodeSegments]
    have := readUInt32BE_writeUInt32BE s hs
    simp only [writeUInt32BE] at this
    rw [this]
    exact congrArg (List.cons s) ih

theorem flatten_map_writeUInt32BE_length (path : List Nat) :
    ((path.map writeUInt32BE).flatten).length = 4 * path.length := by
  induction path with
  | nil => rfl
  | cons s rest ih =>
    simp only [List.map_cons, List.flatten_cons, List.length_append, ih, List.length_cons]
    simp [writeUInt32BE]
    ring

theorem serializePath_ok (path : List Nat) (hL : path.length ≤ 127)
    (hseg : ∀ s ∈ path, s < 0x100000000) :
    serializePath path = Except.ok (path.length :: (path.map writeUInt32BE).flatten) := by
  have h1 : ¬ 127 < path.length := by omega
  have h2 : path.any (fun s => 0xffffffff < s) = false := by
    rw [List.any_eq_false]
    intro x hx
    have := hseg x hx
    simp only [decide_eq_true_eq]
    omega
  simp [serializePath, h1, h2]

theorem chunkMessage_length (msg : List Nat) :
    (chunkMessage msg).length = (msg.length + CHUNK_SIZE - 1) / CHUNK_SIZE := by
  simp [chunkMessage]

set_option maxRecDepth 8000 in
theorem chunkMessage_cons (msg : List Nat) (h : msg ≠ []) :
    chunkMessage msg = msg.take CHUNK_SIZE :: chunkMessage (msg.drop CHUNK_SIZE) := by
  have hlen : 1 ≤ msg.length := List.length_pos.mpr h
  have hcount : (msg.length + CHUNK_SIZE - 1) / CHUNK_SIZE
      = ((msg.drop CHUNK_SIZE).length + CHUNK_SIZE - 1) / CHUNK_SIZE + 1 := by
    simp only [List.length_drop, CHUNK_SIZE]
    omega
  unfold chunkMessage
  rw [hcount, List.range_succ_eq_map, List.map_cons, List.map_map]
  congr 1
  apply List.map_congr_left
  intro k _
  show (msg.drop ((k + 1) * CHUNK_SIZE)).take CHUNK_SIZE
      = ((msg.drop CHUNK_SIZE).drop (k * CHUNK_SIZE)).take CHUNK_SIZE
  rw [List.drop_drop]
  congr 2
  ring

set_option maxRecDepth 2000 in
theorem chunkMessage_flatten (msg : List Nat) : (chunkMessage msg).flatten = msg := by
  by_cases h : msg = []
  · subst h
    simp [chunkMessage]
  · rw [chunkMessage_cons msg h, List.flatten_cons,
      chunkMessage_flatten (msg.drop CHUNK_SIZE), List.take_append_drop]
termination_by msg.length
decreasing_by
  simp only [List.length_drop, CHUNK_SIZE]
  have : 1 ≤ msg.length := List.length_pos.mpr h
  omega

theorem chunkMessage_size_le (msg : List Nat) :
    ∀ c ∈ chunkMessage msg, c.length ≤ CHUNK_SIZE := by
  intro c hc
  simp only [chunkMessage, List.mem_map] at hc
  obtain ⟨k, -, rfl⟩ := hc
  exact List.length_take_le CHUNK_SIZE (msg.drop (k * CHUNK_SIZE))

theorem sendChunksTrace_getElem (oracle : Nat → List Nat) (n : Nat) :
    ∀ (rest : List (List Nat)) (start j : Nat), j < rest.length →
      ((sendChunksTrace oracle n start rest)[2 * j]?
          = some (Event.send (signChunkAPDU n (start + j) (rest.getD j [])))
        ∧ (sendChunksTrace oracle n start rest)[2 * j + 1]?
          = some (Event.recv (oracle (start + j)))) := by
  intro rest
  induction rest with
  | nil =>
    intro start j h
    simp at h
  | cons d rest ih =>
    intro start j h
    cases j with
    | zero =>
      constructor
      · simp [sendChunksTrace]
      · simp [sendChunksTrace]
    | succ j =>
      have hj : j < rest.length := by
        simp only [List.length_cons] at h
        omega
      have ih2 := ih (start + 1) j hj
      have e1 : 2 * (j + 1) = 2 * j + 1 + 1 := by ring
      have e2 : start + (j + 1) = start + 1 + j := by ring
      constructor
      · rw [e1]
        simp only [sendChunksTrace, List.getElem?_cons_succ]
        rw [ih2.1, List.getD_cons_succ, e2]
      · rw [e1]
        simp only [sendChunksTrace, List.getElem?_cons_succ]
        rw [ih2.2, e2]

theorem sentData_sendChunksTrace (oracle : Nat → List Nat) (n : Nat) :
    ∀ (rest : List (List Nat)) (start : Nat),
      sentData (sendChunksTrace oracle n start rest) = rest := by
  intro rest
  induction rest with
  | nil => intro start; rfl
  | cons d rest ih =>
    intro start
    show sentData (Event.send (signChunkAPDU n start d) :: Event.recv (oracle start)
        :: sendChunksTrace oracle n (start + 1) rest) = d :: rest
    simp only [sentData, List.filterMap_cons]
    exact congrArg (List.cons d) (ih (start + 1))

theorem sentStatusLists_sendChunksTrace (oracle : Nat → List Nat) (n : Nat) :
    ∀ (rest : List (List Nat)) (start : Nat),
      sentStatusLists (sendChunksTrace oracle n start rest)
        = List.replicate rest.length (some [SW_OK, SW_CANCEL]) := by
  intro rest
  induction rest with
  | nil => intro start; rfl
  | cons d rest ih =>
    intro start
    show sentStatusLists (Event.send (signChunkAPDU n start d) :: Event.recv (oracle start)
        :: sendChunksTrace oracle n (start + 1) rest)
      = List.replicate (rest.length + 1) (some [SW_OK, SW_CANCEL])
    simp only [sentStatusLists, List.filterMap_cons, List.replicate_succ]
    exact congrArg (List.cons (some [SW_OK, SW_CANCEL])) (ih (start + 1))

theorem decodeStatus_eq (l : List Nat) (h : 2 ≤ l.length) :
    decodeStatus l = l.getD (l.length - 2) 0 * 0x100 + l.getD (l.length - 1) 0 := by
  have e : l.length - 2 + 1 = l.length - 1 := by omega
  unfold decodeStatus
  have h1 : (l.drop (l.length - 2)).getD 0 0 = l.getD (l.length - 2) 0 := by
    rw [List.getD_eq_getElem?_getD, List.getD_eq_getElem?_getD, List.getElem?_drop,
      Nat.add_zero]
  have h2 : (l.drop (l.length - 2)).getD 1 0 = l.getD (l.length - 1) 0 := by
    rw [List.getD_eq_getElem?_getD, List.getD_eq_getElem?_getD, List.getElem?_drop, e]
  rw [h1, h2]

theorem getAddressDecode_not_cancel (resp : List Nat)
    (hc : decodeStatus resp ≠ SW_CANCEL) :
    getAddressDecode resp = Except.ok
      { publicKey := bytesToHex resp, address := "", returnCode := decodeStatus resp } := by
  unfold getAddressDecode
  rw [if_neg hc]

theorem signDecode_not_cancel (resp : List Nat)
    (hc : decodeStatus resp ≠ SW_CANCEL) :
    signDecode resp = Except.ok
      { signature := if 2 < resp.length then some (resp.take (resp.length - 2)) else none
        returnCode := decodeStatus resp } := by
  unfold signDecode
  rw [if_neg hc]

/-! ### Claim theorems -/

/-- C1 (code-bug evidence): at a mocked reply of 32 arbitrary bytes followed by
0x90 0x00, `getAddress` returns `returnCode = 0x9000`, but its `publicKey` is the
hex encoding of the ENTIRE 34-byte response, trailing status word included —
68 hex characters, not the 64 of the 32 key bytes that the claim (and the spec)
require after stripping the trailing 2-byte status. -/
theorem getAddress_publicKey_keeps_status_C1 :
    getAddress examplePath false exampleReply
      = Except.ok { publicKey := bytesToHex exampleReply, address := "", returnCode := 0x9000 }
    ∧ bytesToHex exampleReply ≠ bytesToHex (exampleReply.take (exampleReply.length - 2))
    ∧ (bytesToHex exampleReply).length = 68
    ∧ (bytesToHex (exampleReply.take (exampleReply.length - 2))).length = 64 :=
  ⟨rfl, by decide, by decide, by decide⟩

/-- C2 counterexample: for the 21-byte encoded example path and a 600-byte
message, the code sends 4 chunks (the path is its own chunk), not
ceil((600 + 21) / 250) = 3 as the claim states. -/
theorem signTransaction_chunkCount_counterexample_C2 :
    (signChunks exampleSp (List.replicate 600 0)).length = 4
    ∧ (600 + 21 + 249) / 250 = 3
    ∧ (signChunks exampleSp (List.replicate 600 0)).length ≠ (600 + 21 + 249) / 250 := by
  have h4 : (signChunks exampleSp (List.replicate 600 0)).length = 4 := by
    show (chunkMessage (List.replicate 600 0)).length + 1 = 4
    rw [chunkMessage_length]
    simp only [List.length_replicate, CHUNK_SIZE]
  refine ⟨h4, by norm_num, ?_⟩
  rw [h4]
  norm_num

set_option maxRecDepth 40000 in
/-- C2 (amended): the encoded path is sent as its own first chunk and the
message is split separately, so the number of chunks sent equals
1 + ceil(M / 250) — at least 1 even when M = 0 — and a 600-byte message
produces 4 chunks of sizes 21 (path), 250, 250, 100. -/
theorem signTransaction_chunkCount_C2 (sp msg : List Nat) (oracle : Nat → List Nat) :
    (signChunks sp msg).length = 1 + (msg.length + CHUNK_SIZE - 1) / CHUNK_SIZE
    ∧ 1 ≤ (signChunks sp msg).length
    ∧ sentData (signTrace oracle (signChunks sp msg)) = signChunks sp msg
    ∧ (signChunks exampleSp (List.replicate 600 0)).map List.length = [21, 250, 250, 100] := by
  refine ⟨?_, ?_, ?_, ?_⟩
  · show (chunkMessage msg).length + 1 = _
    rw [chunkMessage_length]
    omega
  · show 1 ≤ (chunkMessage msg).length + 1
    omega
  · exact sentData_sendChunksTrace oracle (signChunks sp msg).length (signChunks sp msg) 0
  · decide

/-- C3 counterexample: with the example path and an empty message the operation
produces exactly one chunk, and the parameter byte 1 of its single frame is
PAYLOAD_TYPE_INIT (0x00), not PAYLOAD_TYPE_LAST (0x02): the code tests
`j === 0` before `j + 1 === chunks.length`. -/
theorem singleChunk_tag_counterexample_C3 :
    (signChunks exampleSp []).length = 1
    ∧ (signTrace (fun _ => [0x90, 0x00]) (signChunks exampleSp [])).map eventP1
        = [some PAYLOAD_TYPE_INIT, none]
    ∧ PAYLOAD_TYPE_INIT ≠ PAYLOAD_TYPE_LAST :=
  ⟨rfl, rfl, by decide⟩

/-- C3 (amended): whenever a signTransaction operation produces exactly one
chunk, the chunk-type tag placed in parameter byte 1 of that single frame
resolves to PAYLOAD_TYPE_INIT (0x00), because the index-0 test takes
precedence over the last-index test. -/
theorem singleChunk_tag_is_init_C3 (oracle : Nat → List Nat) (chunks : List (List Nat))
    (h : chunks.length = 1) :
    (signTrace oracle chunks).map eventP1 = [some PAYLOAD_TYPE_INIT, none] := by
  cases chunks with
  | nil => simp at h
  | cons d rest =>
    cases rest with
    | nil => rfl
    | cons e rest2 =>
      simp only [List.length_cons] at h
      omega

/-- C3 witness: the amended claim at a concrete one-chunk trace. -/
theorem singleChunk_tag_is_init_C3_witness :
    (signTrace (fun _ => [0x69, 0x86]) [[7]]).map eventP1 = [some PAYLOAD_TYPE_INIT, none] :=
  singleChunk_tag_is_init_C3 (fun _ => [0x69, 0x86]) [[7]] rfl

set_option maxRecDepth 10000 in
/-- C4 counterexample: a 128-segment path is ≤ 255, yet `serializePath` fails:
`writeInt8` accepts only values up to 127, so the claimed 255 bound is wrong. -/
theorem serializePath_128_counterexample_C4 :
    serializePath (List.replicate 128 0) = Except.error int8OutOfRange := rfl

/-- C4 (amended): for every path whose segments fit in 32 bits, encoding
succeeds iff the length L is at most 127 (the length byte is written with the
signed `writeInt8`), with output length 1 + 4L, first byte L, and big-endian
4-byte groups that decode back to the original segments; for L > 127 it fails
with the `writeInt8` range error. -/
theorem serializePath_spec_C4 (path : List Nat) (hseg : ∀ s ∈ path, s < 0x100000000) :
    (path.length ≤ 127 →
      ∃ out, serializePath path = Except.ok out
        ∧ out.length = 1 + 4 * path.length
        ∧ out.head? = some path.length
        ∧ decodeSegments (out.drop 1) = path)
    ∧ (127 < path.length → serializePath path = Except.error int8OutOfRange) := by
  constructor
  · intro hL
    refine ⟨path.length :: (path.map writeUInt32BE).flatten,
      serializePath_ok path hL hseg, ?_, rfl, ?_⟩
    · rw [List.length_cons, flatten_map_writeUInt32BE_length]
      omega
    · show decodeSegments ((path.map writeUInt32BE).flatten) = path
      exact decodeSegments_flatten path hseg
  · intro hL
    unfold serializePath
    rw [if_pos hL]

/-- C4 witness: the amended claim evaluated at the example path. -/
theorem serializePath_spec_C4_witness :
    ∃ out, serializePath examplePath = Except.ok out
      ∧ out.length = 1 + 4 * examplePath.length
      ∧ out.head? = some examplePath.length
      ∧ decodeSegments (out.drop 1) = examplePath :=
  (serializePath_spec_C4 examplePath (by decide)).1 (by decide)

set_option maxRecDepth 10000 in
/-- C5 counterexample: a 63-segment path (well under the claimed 255-segment
hypothesis) serializes successfully to 253 bytes, and that 253-byte buffer is
sent as the data of the first chunk — exceeding the 250-byte maximum. -/
theorem pathChunk_over_250_counterexample_C5 :
    (serializePath (List.replicate 63 0)).toOption ≠ none
    ∧ ((serializePath (List.replicate 63 0)).toOption.getD []).length = 253
    ∧ (signChunks ((serializePath (List.replicate 63 0)).toOption.getD []) []).map List.length
        = [253]
    ∧ ¬ (253 ≤ 250) :=
  ⟨by decide, by decide, rfl, by decide⟩

/-- C5 (amended): every chunk built from the message is at most 250 bytes;
the chunk carrying the encoded path has 1 + 4L bytes, so all chunks are at
most 250 bytes whenever the path has at most 62 segments. -/
theorem signChunks_size_bound_C5 (path sp msg : List Nat)
    (hsp : serializePath path = Except.ok sp) (hL : path.length ≤ 62) :
    (∀ c ∈ chunkMessage msg, c.length ≤ CHUNK_SIZE)
    ∧ ∀ c ∈ signChunks sp msg, c.length ≤ CHUNK_SIZE := by
  have hsp2 : sp = path.length :: (path.map writeUInt32BE).flatten := by
    unfold serializePath at hsp
    by_cases h1 : 127 < path.length
    · rw [if_pos h1] at hsp
      exact Except.noConfusion hsp
    · rw [if_neg h1] at hsp
      by_cases h2 : path.any (fun s => 0xffffffff < s) = true
      · rw [if_pos h2] at hsp
        exact Except.noConfusion hsp
      · rw [if_neg h2] at hsp
        exact (Except.ok.inj hsp).symm
  refine ⟨chunkMessage_size_le msg, ?_⟩
  intro c hc
  have hc2 : c ∈ sp :: chunkMessage msg := hc
  rcases List.mem_cons.mp hc2 with hceq | hc3
  · rw [hceq, hsp2, List.length_cons, flatten_map_writeUInt32BE_length]
    simp only [CHUNK_SIZE]
    omega
  · exact chunkMessage_size_le msg c hc3

/-- C5 witness: the amended bound evaluated at the first chunk (the encoded
example path) of a concrete 300-byte signing operation. -/
theorem signChunks_size_bound_C5_witness :
    exampleSp.length ≤ CHUNK_SIZE :=
  (signChunks_size_bound_C5 examplePath exampleSp (List.replicate 300 7) rfl (by decide)).2
    exampleSp (List.mem_cons_self exampleSp (chunkMessage (List.replicate 300 7)))

/-- C6 counterexample: `getAppConfiguration` calls `transport.send` with no
acceptable-status list at all, so the transport default applies and
USER_REFUSED (0x6986) is not accepted, contradicting the claim that all three
operations pass a list containing both SUCCESS and USER_REFUSED. -/
theorem getAppConfig_statusList_counterexample_C6 :
    getAppConfigAPDU.statusList = none
    ∧ SW_CANCEL ∉ effectiveStatusList getAppConfigAPDU
    ∧ SW_OK ∈ effectiveStatusList getAppConfigAPDU :=
  ⟨rfl, by decide, by decide⟩

/-- C6 (amended): every send of getAddress and of signTransaction passes the
list [SUCCESS, USER_REFUSED]; getAppConfiguration passes no list, so only the
transport-default SUCCESS is acceptable there. -/
theorem acceptable_status_lists_C6 (sp msg : List Nat) (display : Bool)
    (oracle : Nat → List Nat) :
    (getAddressAPDU sp display).statusList = some [SW_OK, SW_CANCEL]
    ∧ sentStatusLists (signTrace oracle (signChunks sp msg))
        = List.replicate (signChunks sp msg).length (some [SW_OK, SW_CANCEL])
    ∧ getAppConfigAPDU.statusList = none
    ∧ effectiveStatusList getAppConfigAPDU = [SW_OK] := by
  refine ⟨rfl, ?_, rfl, rfl⟩
  exact sentStatusLists_sendChunksTrace oracle (signChunks sp msg).length (signChunks sp msg) 0

/-- C7: concatenating the data of all chunks sent by a signTransaction call,
in order, reproduces exactly [encoded path] ++ [raw message bytes]. -/
theorem sentData_flatten_C7 (sp msg : List Nat) (oracle : Nat → List Nat) :
    (sentData (signTrace oracle (signChunks sp msg))).flatten = sp ++ msg := by
  unfold signTrace
  rw [sentData_sendChunksTrace]
  show (sp :: chunkMessage msg).flatten = sp ++ msg
  rw [List.flatten_cons, chunkMessage_flatten]

/-- C8: in the transport trace of the chunk loop, the j-th send occupies
position 2j, its reply position 2j + 1, and 2j + 1 < 2(j + 1): chunks go out
strictly sequentially in index order, each reply received before the next
chunk is sent, so no two frames of one operation are in flight at once. -/
theorem signTrace_sequential_C8 (oracle : Nat → List Nat) (chunks : List (List Nat))
    (j : Nat) (h : j < chunks.length) :
    (signTrace oracle chunks)[2 * j]?
        = some (Event.send (signChunkAPDU chunks.length j (chunks.getD j [])))
    ∧ (signTrace oracle chunks)[2 * j + 1]? = some (Event.recv (oracle j))
    ∧ 2 * j + 1 < 2 * (j + 1) := by
  have hg := sendChunksTrace_getElem oracle chunks.length chunks 0 j h
  rw [Nat.zero_add] at hg
  exact ⟨hg.1, hg.2, by omega⟩

/-- C8 witness: the sequencing property at a concrete two-chunk trace. -/
theorem signTrace_sequential_C8_witness :
    (signTrace (fun _ => [0x90, 0x00]) [[1], [2]])[2 * 0]?
        = some (Event.send (signChunkAPDU 2 0 [1]))
    ∧ (signTrace (fun _ => [0x90, 0x00]) [[1], [2]])[2 * 0 + 1]?
        = some (Event.recv [0x90, 0x00])
    ∧ 2 * 0 + 1 < 2 * (0 + 1) :=
  signTrace_sequential_C8 (fun _ => [0x90, 0x00]) [[1], [2]] 0 (by decide)

/-- C9: getAddress raises UserRefusedAddress exactly when the decoded status
word of its reply is 0x6986; signTransaction raises UserRefusedOnDevice
exactly when the decoded status of the final chunk's reply is 0x6986; the
status is decoded big-endian from the last two response bytes; and in every
other case each operation returns a result carrying the raw status code. -/
theorem refusal_classification_C9 (path msg response : List Nat) (display : Bool)
    (oracle : Nat → List Nat) (sp : List Nat)
    (hsp : serializePath path = Except.ok sp)
    (hlen : 2 ≤ response.length) :
    (getAddress path display response = Except.error HederaError.userRefusedAddress
        ↔ decodeStatus response = SW_CANCEL)
    ∧ (signTransaction path msg oracle = Except.error HederaError.userRefusedOnDevice
        ↔ decodeStatus (oracle ((signChunks sp msg).length - 1)) = SW_CANCEL)
    ∧ decodeStatus response
        = response.getD (response.length - 2) 0 * 0x100 + response.getD (response.length - 1) 0
    ∧ (decodeStatus response ≠ SW_CANCEL →
        getAddress path display response = Except.ok
          { publicKey := bytesToHex response, address := "",
            returnCode := decodeStatus response })
    ∧ (decodeStatus (oracle ((signChunks sp msg).length - 1)) ≠ SW_CANCEL →
        ∃ r, signTransaction path msg oracle = Except.ok r
          ∧ r.returnCode = decodeStatus (oracle ((signChunks sp msg).length - 1))) := by
  have hga : getAddress path display response = getAddressDecode response := by
    unfold getAddress
    rw [hsp]
  have hst : signTransaction path msg oracle
      = signDecode (oracle ((signChunks sp msg).length - 1)) := by
    unfold signTransaction
    rw [hsp]
  refine ⟨?_, ?_, decodeStatus_eq response hlen, ?_, ?_⟩
  · rw [hga]
    unfold getAddressDecode
    by_cases hc : decodeStatus response = SW_CANCEL
    · simp [hc]
    · simp [hc]
  · rw [hst]
    unfold signDecode
    by_cases hc : decodeStatus (oracle ((signChunks sp msg).length - 1)) = SW_CANCEL
    · simp [hc]
    · simp [hc]
  · intro hc
    rw [hga]
    exact getAddressDecode_not_cancel response hc
  · intro hc
    exact ⟨_, hst.trans (signDecode_not_cancel _ hc), rfl⟩

/-- C9 witness: the classification at the example path, a success reply for
getAddress and a user-refusal reply for every signing chunk. -/
theorem refusal_classification_C9_witness :
    (getAddress examplePath false exampleReply = Except.error HederaError.userRefusedAddress
        ↔ decodeStatus exampleReply = SW_CANCEL)
    ∧ (signTransaction examplePath [1, 2, 3] (fun _ => [0x69, 0x86])
          = Except.error HederaError.userRefusedOnDevice
        ↔ decodeStatus ((fun _ : Nat => [0x69, 0x86])
            ((signChunks exampleSp [1, 2, 3]).length - 1)) = SW_CANCEL)
    ∧ decodeStatus exampleReply
        = exampleReply.getD (exampleReply.length - 2) 0 * 0x100
          + exampleReply.getD (exampleReply.length - 1) 0
    ∧ (decodeStatus exampleReply ≠ SW_CANCEL →
        getAddress examplePath false exampleReply = Except.ok
          { publicKey := bytesToHex exampleReply, address := "",
            returnCode := decodeStatus exampleReply })
    ∧ (decodeStatus ((fun _ : Nat => [0x69, 0x86])
          ((signChunks exampleSp [1, 2, 3]).length - 1)) ≠ SW_CANCEL →
        ∃ r, signTransaction examplePath [1, 2, 3] (fun _ => [0x69, 0x86]) = Except.ok r
          ∧ r.returnCode = decodeStatus ((fun _ : Nat => [0x69, 0x86])
              ((signChunks exampleSp [1, 2, 3]).length - 1))) :=
  refusal_classification_C9 examplePath [1, 2, 3] exampleReply false
    (fun _ => [0x69, 0x86]) exampleSp rfl (by decide)

/-- C10: whenever getAddress returns a result, the address field is the empty
string, regardless of path, display flag, or reply. -/
theorem getAddress_address_empty_C10 (path : List Nat) (display : Bool)
    (response : List Nat) (r : AddressResult)
    (h : getAddress path display response = Except.ok r) :
    r.address = "" := by
  unfold getAddress at h
  split at h
  · simp at h
  · unfold getAddressDecode at h
    split at h
    · simp at h
    · injection h with h2
      rw [← h2]

/-- C10 witness: a concrete successful getAddress call has empty address. -/
theorem getAddress_address_empty_C10_witness :
    ({ publicKey := bytesToHex [0x90, 0x00], address := "", returnCode := 0x9000 }
      : AddressResult).address = "" :=
  getAddress_address_empty_C10 examplePath true [0x90, 0x00] _ rfl

end LedgerHedera
